import Mathlib

/-!
Shallow embedding of `inversify-koa-utils` (the metadata-driven route compiler
and request dispatcher for Koa controllers) and proofs about its behaviour.

The embedding translates the TypeScript sources:
  * `src/server.ts`   — `InversifyKoaServer` (`build`, `registerControllers`,
    `resolveMiddleware`, `handlerFactory`, `extractParameters`, `getParam`,
    `checkQueryParam`, `_getCurrentPrincipal`);
  * `src/decorators.ts` / `src/constants.ts` — the metadata shapes and the
    `PARAMETER_TYPE` enumeration;
  * the older variant of `server.ts` kept in the repository (its `getParam`
    carries an extra special case for the `"default"` query sentinel), embedded
    here under the name `getParamLegacy`.

JavaScript runtime behaviour that the code relies on (truthiness of `||`,
sparse-array index assignment, property access returning `undefined` for a
missing key) is modelled explicitly on a small value universe `JsVal`.
-/

/-- The constant `DEFAULT_ROUTING_ROOT_PATH` from `src/constants.ts`. -/
def DEFAULT_ROUTING_ROOT_PATH : String := "/"

/-- The `PARAMETER_TYPE` enum from `src/constants.ts`. -/
inductive PARAMETER_TYPE where
  | REQUEST
  | RESPONSE
  | PARAMS
  | QUERY
  | BODY
  | HEADERS
  | COOKIES
  | NEXT
  | CTX
  deriving DecidableEq, Repr

/-- Embeds `interfaces.ParameterMetadata`: one parameter binding record produced by
the `params(type, parameterName)` decorator (`src/decorators.ts`). -/
structure ParameterMetadata where
  parameterName : String
  index : Nat
  type : PARAMETER_TYPE
  deriving DecidableEq, Repr

/-- A small universe of JavaScript runtime values, rich enough to run the
argument-extraction code on: `undefined`, `null`, booleans, numbers, strings,
plain objects (association lists of properties), opaque function values, and
the Koa cookie accessor object (whose cookies are readable only through its
`get(name)` method, not as own properties). -/
inductive JsVal where
  | undefined : JsVal
  | vnull : JsVal
  | vbool : Bool → JsVal
  | vnum : Int → JsVal
  | vstr : String → JsVal
  | vobj : List (String × JsVal) → JsVal
  | vfun : Nat → JsVal
  | vcookiejar : List (String × String) → JsVal

/-- JavaScript truthiness: `undefined`, `null`, `false`, `0` and `""` are
falsy; objects, functions and the cookie accessor are truthy. -/
def truthy : JsVal → Bool
  | .undefined => false
  | .vnull => false
  | .vbool b => b
  | .vnum n => n != 0
  | .vstr s => s != ""
  | .vobj _ => true
  | .vfun _ => true
  | .vcookiejar _ => true

/-- JavaScript `a || b` (short-circuiting, value-returning disjunction). -/
def jsOr (a b : JsVal) : JsVal := if truthy a then a else b

/-- JavaScript property read `v[name]`: on a plain object, the stored value
for the key, or `undefined` when the key is absent; on every other value
(including the cookie accessor, which keeps the cookies internally rather
than as own properties) the read yields `undefined`. -/
def getProp (v : JsVal) (name : String) : JsVal :=
  match v with
  | .vobj fields =>
    match fields.find? (fun p => p.1 == name) with
    | some p => p.2
    | none => .undefined
  | _ => .undefined

/-- Property read with an optional key, modelling `source[paramType]` where
`paramType : string` may be `null`: JavaScript coerces the key `null` to the
string `"null"`. -/
def getPropOpt (v : JsVal) : Option String → JsVal
  | some s => getProp v s
  | none => getProp v "null"

/-- The Koa cookie accessor's `get(name)`: the cookie's value when present,
`undefined` otherwise (it does not throw on a missing cookie). -/
def cookieGet (v : JsVal) (name : String) : JsVal :=
  match v with
  | .vcookiejar jar =>
    match jar.find? (fun p => p.1 == name) with
    | some p => .vstr p.2
    | none => .undefined
  | _ => .undefined

/-- Embeds `InversifyKoaServer.checkQueryParam` (`src/server.ts`): for the `"query"`
source a missed lookup yields `undefined`; for `"cookies"` it falls back to
the accessor's `get(name)`; for every other source it yields the whole
collection `param`. -/
def checkQueryParam (paramType : Option String) (param : JsVal) (name : String) : JsVal :=
  if paramType == some "query" then .undefined
  else if paramType == some "cookies" then cookieGet param name
  else param

/-- Embeds `InversifyKoaServer.getParam` (`src/server.ts`, current version):
`let param = source[paramType] || source; return param[name] ||
this.checkQueryParam(paramType, param, name);`. -/
def getParam (source : JsVal) (paramType : Option String) (name : String) : JsVal :=
  let param := jsOr (getPropOpt source paramType) source
  jsOr (getProp param name) (checkQueryParam paramType param name)

/-- Embeds `InversifyKoaServer.getParam` from the older `server.ts` variant kept in
the repository (`src/unnamed/part_002`): identical except for the extra
special case `if (paramType === "query" && name === "default") return param;`
placed before the lookup. -/
def getParamLegacy (source : JsVal) (paramType : Option String) (name : String) : JsVal :=
  let param := jsOr (getPropOpt source paramType) source
  if paramType == some "query" && name == "default" then param
  else jsOr (getProp param name) (checkQueryParam paramType param name)

/-- One arm of the `switch (item.type)` in
`InversifyKoaServer.extractParameters` (`src/server.ts`): the value assigned
to `args[item.index]` for a single metadata item. -/
def extractOne (ctx next : JsVal) (item : ParameterMetadata) : JsVal :=
  match item.type with
  | .RESPONSE => getParam (getProp ctx "response") none item.parameterName
  | .REQUEST  => getParam (getProp ctx "request") none item.parameterName
  | .NEXT     => next
  | .CTX      => getParam ctx none item.parameterName
  | .PARAMS   => getParam ctx (some "params") item.parameterName
  | .QUERY    => getParam ctx (some "query") item.parameterName
  | .BODY     => getParam (getProp ctx "request") (some "body") item.parameterName
  | .HEADERS  => getParam (getProp ctx "request") (some "headers") item.parameterName
  | .COOKIES  => getParam ctx (some "cookies") item.parameterName

/-- JavaScript sparse-array assignment `a[i] = v`: overwrites in place when
`i` is within bounds, otherwise extends the array to length `i + 1`, reading
the padding holes as `undefined`. -/
def setIdx (a : List JsVal) (i : Nat) (v : JsVal) : List JsVal :=
  if i < a.length then a.set i v
  else a ++ List.replicate (i - a.length) JsVal.undefined ++ [v]

/-- Embeds `InversifyKoaServer.extractParameters` (`src/server.ts`): with no
parameter metadata the argument list is exactly `[ctx, next]`; otherwise each
item's extracted value is assigned at `args[item.index]` and `ctx, next` are
pushed at the end. -/
def extractParameters (ctx next : JsVal) (params : List ParameterMetadata) : List JsVal :=
  if params.isEmpty then [ctx, next]
  else
    (params.foldl (fun a item => setIdx a item.index (extractOne ctx next item)) []) ++
      [ctx, next]

/-- A runtime value that can occur in a route's middleware chain or in a
middleware declaration list (`interfaces.Middleware` is the union of DI
service identifiers and inline Koa request handlers):
  * `handlerFn` — an inline function value usable directly as a handler;
  * `serviceSym` — a string/symbol service identifier;
  * `adapterFn` — the wrapper closure `function(ctx, next) \x7b return
    middlewareInstance.handler(ctx, next); \x7d` that `resolveMiddleware`
    creates around a resolved `BaseMiddleware` instance;
  * `invocationFn` — the generated invocation handler produced by
    `handlerFactory(controllerName, key, parameterMetadata)`. -/
inductive KoaValue where
  | handlerFn : Nat → KoaValue
  | serviceSym : String → KoaValue
  | adapterFn : Nat → KoaValue
  | invocationFn : String → String → List ParameterMetadata → KoaValue
  deriving DecidableEq, Repr

/-- What the DI container yields for a bound middleware identifier
(`type MiddlewareInstance = interfaces.KoaRequestHandler | BaseMiddleware`
in `src/server.ts`): either a plain handler function, or an instance of the
`BaseMiddleware` class (identified by the tag of its `handler` method). -/
inductive MiddlewareInstance where
  | plainHandler : Nat → MiddlewareInstance
  | baseMiddleware : Nat → MiddlewareInstance
  deriving DecidableEq, Repr

/-- The slice of the DI container that middleware resolution consults:
`isBound` is `(bindings.find? ...).isSome` and `get` returns the bound
instance. -/
structure Container where
  bindings : List (KoaValue × MiddlewareInstance)
  deriving DecidableEq, Repr

/-- Container lookup: `some` when `isBound` would be true, carrying what
`get` would return. -/
def Container.lookup (c : Container) (item : KoaValue) : Option MiddlewareInstance :=
  (c.bindings.find? (fun p => p.1 == item)).map (fun p => p.2)

/-- Embeds `InversifyKoaServer.resolveMiddleware` (`src/server.ts`): each item with a
container binding is resolved — a resolved `BaseMiddleware` is wrapped in the
forwarding adapter, any other resolved value is used directly — and an
unbound item is returned as-is. -/
def resolveMiddleware (c : Container) (middleware : List KoaValue) : List KoaValue :=
  middleware.map (fun middlewareItem =>
    match c.lookup middlewareItem with
    | some (.baseMiddleware b) => .adapterFn b
    | some (.plainHandler h) => .handlerFn h
    | none => middlewareItem)

/-- Embeds `interfaces.ControllerMetadata` (`src/interfaces.ts`): the record stored
by the `@controller(path, ...middleware)` decorator. `name` stands for
`target.name`, the class name used for the named container binding. -/
structure ControllerMetadata where
  path : String
  middleware : List KoaValue
  name : String
  deriving DecidableEq, Repr

/-- Embeds `interfaces.ControllerMethodMetadata`: the record appended by
`httpMethod(method, path, ...middleware)` for a decorated method `key`. -/
structure ControllerMethodMetadata where
  path : String
  middleware : List KoaValue
  method : String
  key : String
  deriving DecidableEq, Repr

/-- The three `Reflect.getOwnMetadata` reads `registerControllers` performs
for one controller: `none` models an absent metadata entry (`undefined`).
The parameter metadata is the map from method name to parameter list
(`interfaces.ControllerParameterMetadata`). -/
structure ControllerInfo where
  controllerMetadata : Option ControllerMetadata
  methodMetadata : Option (List ControllerMethodMetadata)
  parameterMetadata : Option (List (String × List ParameterMetadata))
  deriving DecidableEq, Repr

/-- Embeds `paramList = parameterMetadata[metadata.key] || []` guarded by
`if (parameterMetadata)` in `registerControllers`. -/
def paramListFor (pm : Option (List (String × List ParameterMetadata)))
    (key : String) : List ParameterMetadata :=
  match pm with
  | none => []
  | some m =>
    match m.find? (fun p => p.1 == key) with
    | some p => p.2
    | none => []

/-- Embeds `InversifyKoaServer.handlerFactory`: the generated invocation handler for
`(controllerName, key, parameterMetadata)`. -/
def handlerFactory (controllerName key : String)
    (parameterMetadata : List ParameterMetadata) : KoaValue :=
  .invocationFn controllerName key parameterMetadata

/-- One route registration made on the router:
`this._router[metadata.method](path, ...controllerMiddleware,
...routeMiddleware, handler)`. -/
structure RouteEntry where
  method : String
  path : String
  chain : List KoaValue
  deriving DecidableEq, Repr

/-- The routes one controller contributes inside
`registerControllers` (`src/server.ts`): nothing unless both the controller
metadata and the method metadata list are present; otherwise one registration
per method-metadata entry, under the concatenated path, with the chain
`[...controllerMiddleware, ...routeMiddleware, handler]`. -/
def controllerRoutes (c : Container) (ctrl : ControllerInfo) : List RouteEntry :=
  match ctrl.controllerMetadata, ctrl.methodMetadata with
  | some controllerMetadata, some methodMetadata =>
    let controllerMiddleware := resolveMiddleware c controllerMetadata.middleware
    methodMetadata.map (fun metadata =>
      let paramList := paramListFor ctrl.parameterMetadata metadata.key
      let handler := handlerFactory controllerMetadata.name metadata.key paramList
      let routeMiddleware := resolveMiddleware c metadata.middleware
      { method := metadata.method
        path := controllerMetadata.path ++ metadata.path
        chain := controllerMiddleware ++ routeMiddleware ++ [handler] })
  | _, _ => []

/-- Embeds `interfaces.Principal` (`src/interfaces.ts`): the per-request identity.
The promise-returning capabilities are modelled as their resolved values. -/
structure Principal where
  details : JsVal
  isAuthenticated : Bool
  isInRole : String → Bool
  isResourceOwner : Nat → Bool

/-- The default principal built inline in
`InversifyKoaServer._getCurrentPrincipal` when no auth provider was
configured: `details: null` and all three capabilities resolve `false`. -/
def defaultPrincipal : Principal where
  details := .vnull
  isAuthenticated := false
  isInRole := fun _ => false
  isResourceOwner := fun _ => false

/-- Embeds `interfaces.AuthProvider`: `getPrincipal(ctx)`, over an opaque request
context tag. -/
structure AuthProvider where
  getPrincipal : Nat → Principal

/-- Embeds `InversifyKoaServer._getCurrentPrincipal` (`src/server.ts`): when the
constructor received an auth provider (which it bound into the container
under `TYPE.AuthProvider`), resolve it and ask it for the principal;
otherwise return the default unauthenticated principal. -/
def getCurrentPrincipal (authProvider : Option AuthProvider) (ctx : Nat) : Principal :=
  match authProvider with
  | some provider => provider.getPrincipal ctx
  | none => defaultPrincipal

/-- The per-request state seen by the principal middleware: the opaque
context tag plus the `ctx.state.principal` slot. -/
structure RequestCtx where
  tag : Nat
  statePrincipal : Option Principal

/-- The middleware installed first in `build()` (`src/server.ts`):
`ctx.state.principal = await _self._getCurrentPrincipal(ctx); await next();`
— the principal is computed once, stored into the request state, and only
then is the continuation invoked (it observes the updated state). -/
def principalMiddleware (authProvider : Option AuthProvider)
    (ctx : RequestCtx) (next : RequestCtx → RequestCtx) : RequestCtx :=
  next { ctx with statePrincipal := some (getCurrentPrincipal authProvider ctx.tag) }

/-- The observable build-time actions of `InversifyKoaServer.build()` and
`registerControllers()`, in execution order. -/
inductive BuildEvent where
  | principalInstalled : BuildEvent
  | configInvoked : Nat → BuildEvent
  | prefixApplied : String → BuildEvent
  | routeRegistered : RouteEntry → BuildEvent
  | routesMounted : BuildEvent
  | errorConfigInvoked : Nat → BuildEvent
  deriving DecidableEq, Repr

/-- The server's configuration at the time `build()` is called: the
container, the controllers `container.getAll(TYPE.Controller)` returns, the
routing root path, the functions stored by `setConfig` / `setErrorConfig`
(tagged by `Nat`), the optional auth provider, and a tag for `this._app`. -/
structure ServerState where
  container : Container
  controllers : List ControllerInfo
  rootPath : String
  configFn : Option Nat
  errorConfigFn : Option Nat
  authProvider : Option AuthProvider
  app : Nat

/-- Embeds `InversifyKoaServer.setConfig`. -/
def setConfig (s : ServerState) (fn : Nat) : ServerState := { s with configFn := some fn }

/-- Embeds `InversifyKoaServer.setErrorConfig`. -/
def setErrorConfig (s : ServerState) (fn : Nat) : ServerState :=
  { s with errorConfigFn := some fn }

/-- Embeds `InversifyKoaServer.registerControllers` as its ordered action trace:
apply the root-path prefix when it is not the default, register every
controller's routes in declaration order, then mount the router's routes on
the app. -/
def registerControllers (s : ServerState) : List BuildEvent :=
  (if s.rootPath ≠ DEFAULT_ROUTING_ROOT_PATH then [.prefixApplied s.rootPath] else []) ++
    (s.controllers.flatMap (controllerRoutes s.container)).map .routeRegistered ++
    [.routesMounted]

/-- Embeds `InversifyKoaServer.build()` as its ordered action trace paired with its
return value (the app): install the principal middleware first, invoke the
stored config function if set, register the controllers, invoke the stored
error-config function if set, and return `this._app`. -/
def build (s : ServerState) : List BuildEvent × Nat :=
  ([.principalInstalled] ++
    (match s.configFn with
     | some fn => [.configInvoked fn]
     | none => []) ++
    registerControllers s ++
    (match s.errorConfigFn with
     | some fn => [.errorConfigInvoked fn]
     | none => []),
   s.app)

/-- The routes a build trace registered, in order. -/
def routeEventsOf (events : List BuildEvent) : List RouteEntry :=
  events.filterMap (fun e =>
    match e with
    | .routeRegistered r => some r
    | _ => none)

/-- Recognizer for `configInvoked` events. -/
def isConfigEvent : BuildEvent → Bool
  | .configInvoked _ => true
  | _ => false

/-- Recognizer for `errorConfigInvoked` events. -/
def isErrorConfigEvent : BuildEvent → Bool
  | .errorConfigInvoked _ => true
  | _ => false

/-- Recognizer for `routeRegistered` events. -/
def isRouteEvent : BuildEvent → Bool
  | .routeRegistered _ => true
  | _ => false

/-- The decision of the per-route authorization enforcement: fail with 401,
fail with 403, or let the handler run. -/
inductive AuthDecision where
  | unauthorized401 : AuthDecision
  | forbidden403 : AuthDecision
  | runHandler : AuthDecision
  deriving DecidableEq, Repr

/-- Modelled from the spec: the per-route authorization enforcement is not
implemented in the repository's `src/` (the decorators `authorize` /
`authorizeAll` in `src/decorators.ts` only store `AuthorizeMetadata` /
`AuthorizeAllMetadata`, and `server.ts` never reads them; spec §4.6 notes the
repository bundles only the server-wide principal-computation step). Faithful
to the spec's words: take the method-level rule, or the controller's rule
when no method-level rule exists; with no rule, run the handler
unconditionally; with a rule, fail with 401 if the principal is not
authenticated; if authenticated and the required-role list is non-empty, fail
with 403 unless `isInRole` resolves true for at least one required role; if
authenticated and the required-role list is empty, succeed on authentication
alone. -/
def authorizationGate (methodRoles controllerRoles : Option (List String))
    (p : Principal) : AuthDecision :=
  match methodRoles.or controllerRoles with
  | none => .runHandler
  | some requiredRoles =>
    if !p.isAuthenticated then .unauthorized401
    else if requiredRoles.isEmpty then .runHandler
    else if requiredRoles.any p.isInRole then .runHandler
    else .forbidden403

/-! Concrete fixtures used to instantiate the theorems below. -/

/-- A request context value: route params carry `id = "42"`, the query string
carries `count = "5"`, a cookie `cookie = "hey"` is set, and the request
object exposes headers and a parsed body. -/
def demoCtx : JsVal :=
  .vobj [("params", .vobj [("id", .vstr "42")]),
         ("query", .vobj [("count", .vstr "5")]),
         ("cookies", .vcookiejar [("cookie", "hey")]),
         ("request", .vobj [("body", .vobj [("name", .vstr "bob")]),
                            ("headers", .vobj [("accept", .vstr "json")])]),
         ("response", .vobj [("status", .vnum 200)])]

/-- A continuation value. -/
def demoNext : JsVal := .vfun 0

/-- Parameter metadata for indices 1 and 0, listed in reverse-of-declaration
order (the order `params` produces by prepending). -/
def demoParams : List ParameterMetadata :=
  [⟨"count", 1, .QUERY⟩, ⟨"id", 0, .PARAMS⟩]

/-- A container binding: `"mwB"` resolves to a plain handler and `"mwC"` to a
`BaseMiddleware` instance. -/
def demoContainer : Container :=
  { bindings := [(.serviceSym "mwB", .plainHandler 2),
                 (.serviceSym "mwC", .baseMiddleware 3)] }

/-- Controller metadata: path `/base`, three middleware items in declaration
order (an inline handler, a plain-handler binding, a base-middleware
binding). -/
def demoControllerMetadata : ControllerMetadata :=
  { path := "/base"
    middleware := [.handlerFn 1, .serviceSym "mwB", .serviceSym "mwC"]
    name := "TestController" }

/-- Two method-metadata entries in declaration order. -/
def demoMethodMetadata : List ControllerMethodMetadata :=
  [ { path := "/", middleware := [.handlerFn 10], method := "get", key := "getTest" },
    { path := "/sub", middleware := [], method := "post", key := "postTest" } ]

/-- A controller with full metadata. -/
def demoController : ControllerInfo :=
  { controllerMetadata := some demoControllerMetadata
    methodMetadata := some demoMethodMetadata
    parameterMetadata := some [("getTest", [⟨"id", 0, .PARAMS⟩])] }

/-- A controller whose metadata reads both return `undefined`. -/
def bareController : ControllerInfo :=
  { controllerMetadata := none, methodMetadata := none, parameterMetadata := none }

/-- A server about to `build()`: both config functions set, no auth
provider. -/
def demoServer : ServerState :=
  { container := demoContainer
    controllers := [demoController, bareController]
    rootPath := DEFAULT_ROUTING_ROOT_PATH
    configFn := some 7
    errorConfigFn := some 8
    authProvider := none
    app := 42 }

/-- An unauthenticated principal. -/
def anonPrincipal : Principal where
  details := .vnull
  isAuthenticated := false
  isInRole := fun _ => false
  isResourceOwner := fun _ => false

/-- An authenticated principal holding no roles. -/
def authNoRolePrincipal : Principal where
  details := .vstr "user"
  isAuthenticated := true
  isInRole := fun _ => false
  isResourceOwner := fun _ => false

/-- An authenticated principal in `"role a"`. -/
def roleAPrincipal : Principal where
  details := .vstr "user"
  isAuthenticated := true
  isInRole := fun r => r == "role a"
  isResourceOwner := fun _ => false

/-- The failing input for the `"default"` query sentinel: a context whose
query collection is `\x7b count: "5" \x7d` and has no `default` entry. -/
def queryOnlyCtx : JsVal := .vobj [("query", .vobj [("count", .vstr "5")])]

/-! Lemmas about JavaScript sparse-array assignment. -/

/-- Assigning `a[i] = v` yields length `max a.length (i + 1)`. -/
theorem setIdx_length (a : List JsVal) (i : Nat) (v : JsVal) :
    (setIdx a i v).length = max a.length (i + 1) := by
  unfold setIdx
  split
  · rw [List.length_set]
    omega
  · simp only [List.length_append, List.length_replicate, List.length_cons, List.length_nil]
    omega

/-- Element description of `a[i] = v`: slot `i` holds `v`, slots previously
present are kept, holes read as `undefined`. -/
theorem setIdx_getElem? (a : List JsVal) (i : Nat) (v : JsVal) (k : Nat) :
    (setIdx a i v)[k]? =
      if k = i then some v
      else if k < a.length then a[k]?
      else if k < i then some JsVal.undefined
      else none := by
  unfold setIdx
  split
  · rename_i hi
    rw [List.getElem?_set]
    rcases eq_or_ne k i with rfl | hne
    · simp [hi]
    · rw [if_neg (Ne.symm hne), if_neg hne]
      by_cases hk : k < a.length
      · rw [if_pos hk]
      · rw [if_neg hk, if_neg (by omega), List.getElem?_eq_none (by omega)]
  · rename_i hi
    rcases Nat.lt_trichotomy k i with hk | rfl | hk
    · rw [if_neg (by omega)]
      by_cases hka : k < a.length
      · rw [List.getElem?_append_left (by simp; omega), List.getElem?_append_left hka,
          if_pos hka]
      · rw [List.getElem?_append_left (by simp; omega),
          List.getElem?_append_right (by omega), if_neg hka, if_pos hk,
          List.getElem?_replicate_of_lt (by omega)]
    · rw [if_pos rfl, List.getElem?_append_right (by simp; omega)]
      have harith : k - (a ++ List.replicate (k - a.length) JsVal.undefined).length = 0 := by
        simp; omega
      rw [harith]
      rfl
    · rw [if_neg (by omega), if_neg (by omega), if_neg (by omega),
        List.getElem?_eq_none (by simp; omega)]

/-- Assignments at distinct indices commute. -/
theorem setIdx_comm (a : List JsVal) (i j : Nat) (v w : JsVal) (hij : i ≠ j) :
    setIdx (setIdx a i v) j w = setIdx (setIdx a j w) i v := by
  apply List.ext_getElem?
  intro k
  simp only [setIdx_getElem?, setIdx_length]
  split_ifs <;> first | rfl | omega

/-- Folding further assignments at other indices leaves an occupied slot
unchanged. -/
theorem foldl_setIdx_preserve (f : ParameterMetadata → JsVal)
    (l : List ParameterMetadata) (a : List JsVal) (i : Nat)
    (hi : i < a.length) (h : ∀ x ∈ l, x.index ≠ i) :
    (l.foldl (fun acc item => setIdx acc item.index (f item)) a)[i]? = a[i]? := by
  induction l generalizing a with
  | nil => rfl
  | cons x rest ih =>
    rw [List.foldl_cons]
    have hxi : x.index ≠ i := h x (List.mem_cons_self x rest)
    have h1 : (setIdx a x.index (f x))[i]? = a[i]? := by
      rw [setIdx_getElem?, if_neg (fun hh => hxi hh.symm), if_pos hi]
    have h2 : i < (setIdx a x.index (f x)).length := by
      rw [setIdx_length]; omega
    rw [ih (setIdx a x.index (f x)) h2 (fun y hy => h y (List.mem_cons_of_mem x hy)), h1]

/-- With pairwise-distinct indices, the fold leaves slot `item.index` holding
`item`'s extracted value, for every `item` of the list. -/
theorem foldl_setIdx_slot (f : ParameterMetadata → JsVal)
    (params : List ParameterMetadata)
    (huniq : params.Pairwise (fun a b => a.index ≠ b.index))
    (item : ParameterMetadata) (hmem : item ∈ params) :
    (params.foldl (fun acc it => setIdx acc it.index (f it)) [])[item.index]? =
      some (f item) := by
  obtain ⟨s, t, rfl⟩ := List.append_of_mem hmem
  rw [List.foldl_append, List.foldl_cons]
  have hpair := (List.pairwise_append.mp huniq).2.1
  have hpost : ∀ y ∈ t, y.index ≠ item.index := by
    intro y hy
    exact Ne.symm ((List.pairwise_cons.mp hpair).1 y hy)
  set a0 := s.foldl (fun acc it => setIdx acc it.index (f it)) [] with ha0
  have hlen : item.index < (setIdx a0 item.index (f item)).length := by
    rw [setIdx_length]; omega
  rw [foldl_setIdx_preserve f t _ item.index hlen hpost]
  rw [setIdx_getElem?, if_pos rfl]

/-- The folded array's length is the running maximum of `index + 1`. -/
theorem foldl_setIdx_length (f : ParameterMetadata → JsVal)
    (l : List ParameterMetadata) (a : List JsVal) :
    (l.foldl (fun acc it => setIdx acc it.index (f it)) a).length =
      l.foldl (fun n it => max n (it.index + 1)) a.length := by
  induction l generalizing a with
  | nil => rfl
  | cons x rest ih =>
    rw [List.foldl_cons, List.foldl_cons, ih, setIdx_length]

/-- The running maximum never decreases. -/
theorem le_foldl_max (l : List ParameterMetadata) (n : Nat) :
    n ≤ l.foldl (fun m it => max m (it.index + 1)) n := by
  induction l generalizing n with
  | nil => exact le_refl n
  | cons x rest ih =>
    rw [List.foldl_cons]
    exact le_trans (le_max_left _ _) (ih _)

/-- Every member's `index + 1` is bounded by the running maximum. -/
theorem foldl_max_le (l : List ParameterMetadata) (item : ParameterMetadata)
    (hmem : item ∈ l) :
    ∀ n : Nat, item.index + 1 ≤ l.foldl (fun m it => max m (it.index + 1)) n := by
  induction l with
  | nil => cases hmem
  | cons x rest ih =>
    intro n
    rw [List.foldl_cons]
    rcases List.mem_cons.mp hmem with heq | hmem2
    · exact le_trans (by rw [heq]; exact le_max_right _ _) (le_foldl_max rest _)
    · exact ih hmem2 _

/-- C4: with an empty parameter-metadata list the generated handler is called
with exactly `(context, continuation)`; with a non-empty list each extracted
value sits at the slot given by its metadata `index` (so the result is
invariant under permutations of the metadata list, which is stored in
reverse-of-declaration order), and the context and continuation are appended
as the two trailing arguments after the declared slots. -/
theorem extractParameters_spec (ctx next : JsVal) (params : List ParameterMetadata)
    (huniq : params.Pairwise (fun a b => a.index ≠ b.index)) :
    (params = [] → extractParameters ctx next params = [ctx, next]) ∧
    (∀ item ∈ params,
      (extractParameters ctx next params)[item.index]? =
        some (extractOne ctx next item)) ∧
    (∀ ps : List ParameterMetadata, params.Perm ps →
      extractParameters ctx next ps = extractParameters ctx next params) ∧
    (∃ declared : List JsVal,
      extractParameters ctx next params = declared ++ [ctx, next] ∧
      ∀ item ∈ params, item.index < declared.length) := by
  refine ⟨?_, ?_, ?_, ?_⟩
  · intro h
    subst h
    rfl
  · intro item hmem
    have hne : params.isEmpty = false := by
      cases params with
      | nil => cases hmem
      | cons a l => rfl
    unfold extractParameters
    rw [if_neg (by simp [hne])]
    have hlen :
        item.index <
          (params.foldl
            (fun a it => setIdx a it.index (extractOne ctx next it)) []).length := by
      rw [foldl_setIdx_length (extractOne ctx next)]
      exact foldl_max_le params item hmem 0
    rw [List.getElem?_append_left hlen]
    exact foldl_setIdx_slot (extractOne ctx next) params huniq item hmem
  · intro ps hperm
    cases params with
    | nil =>
      rw [hperm.symm.eq_nil]
    | cons a l =>
      have hne2 : ps.isEmpty = false := by
        cases hps : ps with
        | nil =>
          subst hps
          exact absurd hperm.eq_nil (by simp)
        | cons b m => rfl
      unfold extractParameters
      rw [if_neg (by simp [hne2]), if_neg (by simp)]
      have hfold :
          List.foldl (fun acc it => setIdx acc it.index (extractOne ctx next it)) []
              (a :: l) =
            List.foldl (fun acc it => setIdx acc it.index (extractOne ctx next it)) []
              ps := by
        apply hperm.foldl_eq'
        intro x hx y hy z
        by_cases hxy : x = y
        · subst hxy
          rfl
        · exact setIdx_comm z x.index y.index _ _
            (huniq.forall (fun p q hpq => Ne.symm hpq) hx hy hxy)
      rw [← hfold]
  · by_cases h : params = []
    · subst h
      exact ⟨[], rfl, by intro item hmem; cases hmem⟩
    · refine ⟨params.foldl (fun a it => setIdx a it.index (extractOne ctx next it)) [],
        ?_, ?_⟩
      · unfold extractParameters
        rw [if_neg (by simp [h])]
      · intro item hmem
        rw [foldl_setIdx_length (extractOne ctx next)]
        exact foldl_max_le params item hmem 0

/-- Witness for `extractParameters_spec`: the metadata list
`[(count, 1, QUERY), (id, 0, PARAMS)]` (reverse-of-declaration order) over
`demoCtx` produces `"42"` at slot 0, `"5"` at slot 1, then the context and
continuation. -/
theorem extractParameters_spec_witness :
    demoParams.Pairwise (fun a b => a.index ≠ b.index) ∧
    (extractParameters demoCtx demoNext demoParams)[0]? =
      some (extractOne demoCtx demoNext ⟨"id", 0, .PARAMS⟩) ∧
    (extractParameters demoCtx demoNext demoParams)[1]? =
      some (extractOne demoCtx demoNext ⟨"count", 1, .QUERY⟩) ∧
    extractParameters demoCtx demoNext demoParams =
      [.vstr "42", .vstr "5", demoCtx, demoNext] :=
  ⟨by decide,
   (extractParameters_spec demoCtx demoNext demoParams (by decide)).2.1
     ⟨"id", 0, .PARAMS⟩ (by decide),
   (extractParameters_spec demoCtx demoNext demoParams (by decide)).2.1
     ⟨"count", 1, .QUERY⟩ (by decide),
   rfl⟩

/-- The extraction `routeEventsOf` distributes over concatenation. -/
theorem routeEventsOf_append (l1 l2 : List BuildEvent) :
    routeEventsOf (l1 ++ l2) = routeEventsOf l1 ++ routeEventsOf l2 := by
  simp [routeEventsOf]

/-- No events, no routes. -/
theorem routeEventsOf_nil : routeEventsOf [] = [] := rfl

/-- A registered route heads the extracted route list. -/
theorem routeEventsOf_cons_route (r : RouteEntry) (l : List BuildEvent) :
    routeEventsOf (BuildEvent.routeRegistered r :: l) = r :: routeEventsOf l := rfl

/-- Non-route events are dropped by the extraction. -/
theorem routeEventsOf_cons_other (e : BuildEvent) (l : List BuildEvent)
    (h : isRouteEvent e = false) :
    routeEventsOf (e :: l) = routeEventsOf l := by
  cases e <;> first
    | rfl
    | exact absurd h (by simp [isRouteEvent])

/-- Extracting routes from a pure route-event list is the identity. -/
theorem routeEventsOf_map (R : List RouteEntry) :
    routeEventsOf (R.map BuildEvent.routeRegistered) = R := by
  induction R with
  | nil => rfl
  | cons x xs ih => rw [List.map_cons, routeEventsOf_cons_route, ih]

/-- The routes a build registers, in order, are exactly the concatenation of
each controller's contribution. -/
theorem routeEventsOf_build (s : ServerState) :
    routeEventsOf (build s).1 =
      s.controllers.flatMap (controllerRoutes s.container) := by
  unfold build registerControllers
  cases s.configFn <;> cases s.errorConfigFn <;>
    by_cases h : s.rootPath ≠ DEFAULT_ROUTING_ROOT_PATH <;>
      simp [h, routeEventsOf_append, routeEventsOf_map, routeEventsOf_cons_route,
        routeEventsOf_cons_other, routeEventsOf_nil, isRouteEvent]

/-- C2: a controller with `N` method-metadata entries contributes exactly `N`
route registrations, each under the concatenated path and the declared verb,
and a controller missing either metadata contributes none; the routes `build`
registers are exactly the controllers' contributions in order. -/
theorem build_registers_declared_routes (s : ServerState) :
    (routeEventsOf (build s).1 =
      s.controllers.flatMap (controllerRoutes s.container)) ∧
    (∀ ctrl ∈ s.controllers, ∀ cm mml, ctrl.controllerMetadata = some cm →
      ctrl.methodMetadata = some mml →
      ((controllerRoutes s.container ctrl).length = mml.length ∧
        ∀ i : Nat,
          (controllerRoutes s.container ctrl)[i]?.map (fun r => (r.method, r.path)) =
            mml[i]?.map (fun md => (md.method, cm.path ++ md.path)))) ∧
    (∀ ctrl ∈ s.controllers,
      (ctrl.controllerMetadata = none ∨ ctrl.methodMetadata = none) →
      controllerRoutes s.container ctrl = []) := by
  refine ⟨routeEventsOf_build s, ?_, ?_⟩
  · intro ctrl _ cm mml h1 h2
    constructor
    · simp [controllerRoutes, h1, h2]
    · intro i
      cases h : mml[i]? <;> simp [controllerRoutes, h1, h2, h]
  · intro ctrl _ h
    rcases h with h | h
    · simp [controllerRoutes, h]
    · cases hcm : ctrl.controllerMetadata <;> simp [controllerRoutes, h, hcm]

/-- Witness for `build_registers_declared_routes` on `demoServer`: the demo
controller's two declared routes appear with concatenated paths and verbs,
and the metadata-less controller contributes nothing. -/
theorem build_registers_declared_routes_witness :
    demoController ∈ demoServer.controllers ∧
    demoController.controllerMetadata = some demoControllerMetadata ∧
    demoController.methodMetadata = some demoMethodMetadata ∧
    (controllerRoutes demoServer.container demoController).length = 2 ∧
    (controllerRoutes demoServer.container demoController)[0]?.map
        (fun r => (r.method, r.path)) = some ("get", "/base/") ∧
    (controllerRoutes demoServer.container demoController)[1]?.map
        (fun r => (r.method, r.path)) = some ("post", "/base/sub") ∧
    controllerRoutes demoServer.container bareController = [] := by
  have h := (build_registers_declared_routes demoServer).2.1 demoController
    (by decide) demoControllerMetadata demoMethodMetadata rfl rfl
  have h0 := (build_registers_declared_routes demoServer).2.2 bareController
    (by decide) (Or.inl rfl)
  exact ⟨by decide, rfl, rfl, h.1, by rw [h.2 0]; rfl, by rw [h.2 1]; rfl, h0⟩

/-- C3: the handler chain registered for every route is exactly the resolved
controller-level middleware, then the resolved method-level middleware, then
the generated invocation handler. -/
theorem route_chain_declaration_order (c : Container) (ctrl : ControllerInfo)
    (cm : ControllerMetadata) (mml : List ControllerMethodMetadata)
    (md : ControllerMethodMetadata) (i : Nat)
    (h1 : ctrl.controllerMetadata = some cm) (h2 : ctrl.methodMetadata = some mml)
    (hmd : mml[i]? = some md) :
    (controllerRoutes c ctrl)[i]?.map (fun r => r.chain) =
      some (resolveMiddleware c cm.middleware ++ resolveMiddleware c md.middleware ++
        [handlerFactory cm.name md.key (paramListFor ctrl.parameterMetadata md.key)]) := by
  simp [controllerRoutes, h1, h2, hmd]

/-- Witness for `route_chain_declaration_order`: the demo controller's first
route has chain `[A, B, C, D, invocationHandler]` — its three controller
middleware (inline handler kept as-is, plain binding resolved, base-middleware
binding wrapped in the adapter), its one method middleware, then the generated
handler. -/
theorem route_chain_declaration_order_witness :
    demoController.controllerMetadata = some demoControllerMetadata ∧
    demoController.methodMetadata = some demoMethodMetadata ∧
    demoMethodMetadata[0]? = some
      { path := "/", middleware := [.handlerFn 10], method := "get", key := "getTest" } ∧
    (controllerRoutes demoContainer demoController)[0]?.map (fun r => r.chain) =
      some [.handlerFn 1, .handlerFn 2, .adapterFn 3, .handlerFn 10,
        .invocationFn "TestController" "getTest" [⟨"id", 0, .PARAMS⟩]] := by
  have h := route_chain_declaration_order demoContainer demoController
    demoControllerMetadata demoMethodMetadata
    { path := "/", middleware := [.handlerFn 10], method := "get", key := "getTest" }
    0 rfl rfl (by decide)
  exact ⟨rfl, rfl, by decide, by rw [h]; rfl⟩

/-- C5: `resolveMiddleware` keeps length and order, resolves bound items
(wrapping resolved `BaseMiddleware` instances in the forwarding adapter, using
other resolved values directly) and returns unbound items as-is. -/
theorem resolveMiddleware_spec (c : Container) (l : List KoaValue) :
    ((resolveMiddleware c l).length = l.length) ∧
    (∀ (i : Nat) (item : KoaValue), l[i]? = some item →
      ((∀ b, c.lookup item = some (.baseMiddleware b) →
          (resolveMiddleware c l)[i]? = some (.adapterFn b)) ∧
        (∀ h, c.lookup item = some (.plainHandler h) →
          (resolveMiddleware c l)[i]? = some (.handlerFn h)) ∧
        (c.lookup item = none → (resolveMiddleware c l)[i]? = some item))) := by
  constructor
  · simp [resolveMiddleware]
  · intro i item hitem
    refine ⟨?_, ?_, ?_⟩
    · intro b hb
      simp [resolveMiddleware, hitem, hb]
    · intro h hh
      simp [resolveMiddleware, hitem, hh]
    · intro hn
      simp [resolveMiddleware, hitem, hn]

/-- Witness for `resolveMiddleware_spec` on the demo controller middleware:
same length, unbound inline handler kept, plain binding resolved, base
middleware wrapped. -/
theorem resolveMiddleware_spec_witness :
    ([KoaValue.handlerFn 1, .serviceSym "mwB", .serviceSym "mwC"] : List KoaValue)[0]? =
      some (.handlerFn 1) ∧
    demoContainer.lookup (.handlerFn 1) = none ∧
    demoContainer.lookup (.serviceSym "mwB") = some (.plainHandler 2) ∧
    demoContainer.lookup (.serviceSym "mwC") = some (.baseMiddleware 3) ∧
    (resolveMiddleware demoContainer
        [.handlerFn 1, .serviceSym "mwB", .serviceSym "mwC"]).length = 3 ∧
    (resolveMiddleware demoContainer
        [.handlerFn 1, .serviceSym "mwB", .serviceSym "mwC"])[0]? =
      some (.handlerFn 1) ∧
    (resolveMiddleware demoContainer
        [.handlerFn 1, .serviceSym "mwB", .serviceSym "mwC"])[1]? =
      some (.handlerFn 2) ∧
    (resolveMiddleware demoContainer
        [.handlerFn 1, .serviceSym "mwB", .serviceSym "mwC"])[2]? =
      some (.adapterFn 3) := by
  have h := resolveMiddleware_spec demoContainer
    [.handlerFn 1, .serviceSym "mwB", .serviceSym "mwC"]
  refine ⟨by decide, by decide, by decide, by decide, h.1, ?_, ?_, ?_⟩
  · exact (h.2 0 (.handlerFn 1) (by decide)).2.2 (by decide)
  · exact (h.2 1 (.serviceSym "mwB") (by decide)).2.1 2 (by decide)
  · exact (h.2 2 (.serviceSym "mwC") (by decide)).1 3 (by decide)

/-- Route-registration events are never config invocations. -/
theorem countP_config_map_routes (R : List RouteEntry) :
    List.countP isConfigEvent (R.map BuildEvent.routeRegistered) = 0 := by
  induction R with
  | nil => rfl
  | cons x xs ih => simp [List.countP_cons, isConfigEvent, ih]

/-- Route-registration events are never error-config invocations. -/
theorem countP_errorConfig_map_routes (R : List RouteEntry) :
    List.countP isErrorConfigEvent (R.map BuildEvent.routeRegistered) = 0 := by
  induction R with
  | nil => rfl
  | cons x xs ih => simp [List.countP_cons, isErrorConfigEvent, ih]

/-- C6: when both functions are set, `build` invokes the config function
right after installing the principal middleware and before every route
registration, invokes the error-config function after the routes are
mounted, invokes each exactly once, and returns the application object. -/
theorem build_config_order (s : ServerState) (f g : Nat)
    (hf : s.configFn = some f) (hg : s.errorConfigFn = some g) :
    (∃ mid : List BuildEvent,
      (build s).1 = [.principalInstalled, .configInvoked f] ++ mid ++
        [.routesMounted, .errorConfigInvoked g] ∧
      ∀ e ∈ mid, isRouteEvent e = true ∨ e = .prefixApplied s.rootPath) ∧
    (build s).1.countP isConfigEvent = 1 ∧
    (build s).1.countP isErrorConfigEvent = 1 ∧
    (build s).2 = s.app := by
  refine ⟨⟨(if s.rootPath ≠ DEFAULT_ROUTING_ROOT_PATH
        then [.prefixApplied s.rootPath] else []) ++
      (s.controllers.flatMap (controllerRoutes s.container)).map .routeRegistered,
      ?_, ?_⟩, ?_, ?_, rfl⟩
  · unfold build registerControllers
    rw [hf, hg]
    simp
  · intro e he
    rcases List.mem_append.mp he with h1 | h2
    · right
      by_cases h : s.rootPath ≠ DEFAULT_ROUTING_ROOT_PATH
      · rw [if_pos h] at h1
        simpa using h1
      · rw [if_neg h] at h1
        cases h1
    · left
      obtain ⟨r, _, rfl⟩ := List.mem_map.mp h2
      rfl
  · unfold build registerControllers
    rw [hf, hg]
    by_cases h : s.rootPath ≠ DEFAULT_ROUTING_ROOT_PATH <;>
      simp [h, List.countP_append, List.countP_cons, isConfigEvent,
        countP_config_map_routes]
  · unfold build registerControllers
    rw [hf, hg]
    by_cases h : s.rootPath ≠ DEFAULT_ROUTING_ROOT_PATH <;>
      simp [h, List.countP_append, List.countP_cons, isErrorConfigEvent,
        countP_errorConfig_map_routes]

/-- Witness for `build_config_order` on `demoServer` (config function `7`,
error-config function `8`). -/
theorem build_config_order_witness :
    demoServer.configFn = some 7 ∧
    demoServer.errorConfigFn = some 8 ∧
    (build demoServer).1.countP isConfigEvent = 1 ∧
    (build demoServer).1.countP isErrorConfigEvent = 1 ∧
    (build demoServer).2 = 42 := by
  have h := build_config_order demoServer 7 8 rfl rfl
  exact ⟨rfl, rfl, h.2.1, h.2.2.1, h.2.2.2⟩

/-- C7: at the failing input — a context whose query collection is
`\x7b count: "5" \x7d` with no `default` entry — the current `src/server.ts`
`getParam` yields `undefined` for a QUERY parameter named by the `"default"`
sentinel, while the older in-repository `getParam` variant (and the README's
contract for `@queryParam()` without a name) yields the whole query
collection. -/
theorem query_default_sentinel_divergence :
    getParam queryOnlyCtx (some "query") "default" = .undefined ∧
    getParamLegacy queryOnlyCtx (some "query") "default" =
      .vobj [("count", .vstr "5")] ∧
    extractOne queryOnlyCtx demoNext ⟨"default", 0, .QUERY⟩ = .undefined :=
  ⟨rfl, rfl, rfl⟩

/-- C8: a COOKIES-bound parameter is read through the cookie accessor's
`get(name)` (plain property access on the accessor yields `undefined`): a
set cookie's value is extracted, and a missing cookie extracts `undefined`
without throwing. -/
theorem cookies_via_get_accessor (ctx next : JsVal) (jar : List (String × String))
    (item : ParameterMetadata) (hty : item.type = .COOKIES)
    (hjar : getProp ctx "cookies" = .vcookiejar jar) :
    (∀ p : String × String,
      jar.find? (fun q => q.1 == item.parameterName) = some p →
      extractOne ctx next item = .vstr p.2) ∧
    (jar.find? (fun q => q.1 == item.parameterName) = none →
      extractOne ctx next item = .undefined) := by
  have hext : extractOne ctx next item =
      getParam ctx (some "cookies") item.parameterName := by
    unfold extractOne
    rw [hty]
  have hparam : getParam ctx (some "cookies") item.parameterName =
      cookieGet (.vcookiejar jar) item.parameterName := by
    simp only [getParam, getPropOpt]
    rw [hjar]
    rfl
  constructor
  · intro p hp
    rw [hext, hparam]
    simp only [cookieGet]
    rw [hp]
  · intro hnone
    rw [hext, hparam]
    simp only [cookieGet]
    rw [hnone]

/-- Witness for `cookies_via_get_accessor`: on `demoCtx` (cookie
`cookie=hey`), `@cookies("cookie")` extracts `"hey"` and
`@cookies("nope")` extracts `undefined`. -/
theorem cookies_via_get_accessor_witness :
    (⟨"cookie", 0, .COOKIES⟩ : ParameterMetadata).type = .COOKIES ∧
    getProp demoCtx "cookies" = .vcookiejar [("cookie", "hey")] ∧
    extractOne demoCtx demoNext ⟨"cookie", 0, .COOKIES⟩ = .vstr "hey" ∧
    extractOne demoCtx demoNext ⟨"nope", 0, .COOKIES⟩ = .undefined := by
  refine ⟨rfl, rfl, ?_, ?_⟩
  · exact (cookies_via_get_accessor demoCtx demoNext [("cookie", "hey")]
      ⟨"cookie", 0, .COOKIES⟩ rfl rfl).1 ("cookie", "hey") (by decide)
  · exact (cookies_via_get_accessor demoCtx demoNext [("cookie", "hey")]
      ⟨"nope", 0, .COOKIES⟩ rfl rfl).2 (by decide)

/-- C9: `build` installs the principal middleware first; that middleware
stores the computed principal into the request state before invoking the
continuation; the principal comes from the configured auth provider when one
was supplied, else it is the default principal whose `details` is `null` and
whose three capabilities all resolve `false`. -/
theorem principal_middleware_spec (s : ServerState) (ctx : RequestCtx)
    (next : RequestCtx → RequestCtx) :
    ((build s).1.head? = some .principalInstalled) ∧
    (principalMiddleware s.authProvider ctx next =
      next { ctx with
        statePrincipal := some (getCurrentPrincipal s.authProvider ctx.tag) }) ∧
    (∀ provider, s.authProvider = some provider →
      getCurrentPrincipal s.authProvider ctx.tag = provider.getPrincipal ctx.tag) ∧
    (s.authProvider = none →
      getCurrentPrincipal s.authProvider ctx.tag = defaultPrincipal) ∧
    (defaultPrincipal.details = JsVal.vnull ∧
      defaultPrincipal.isAuthenticated = false ∧
      (∀ role, defaultPrincipal.isInRole role = false) ∧
      (∀ rid, defaultPrincipal.isResourceOwner rid = false)) := by
  refine ⟨rfl, rfl, ?_, ?_, rfl, rfl, fun role => rfl, fun rid => rfl⟩
  · intro provider h
    rw [h]
    rfl
  · intro h
    rw [h]
    rfl

/-- Witness for `principal_middleware_spec` on `demoServer` (no auth
provider) and a request with tag 5. -/
theorem principal_middleware_spec_witness :
    demoServer.authProvider = none ∧
    (build demoServer).1.head? = some .principalInstalled ∧
    getCurrentPrincipal demoServer.authProvider 5 = defaultPrincipal ∧
    defaultPrincipal.isAuthenticated = false ∧
    (principalMiddleware demoServer.authProvider ⟨5, none⟩ (fun c => c)).statePrincipal =
      some defaultPrincipal := by
  have h := principal_middleware_spec demoServer ⟨5, none⟩ (fun c => c)
  refine ⟨rfl, h.1, h.2.2.2.1 rfl, h.2.2.2.2.2.1, ?_⟩
  rw [h.2.1]
  rfl

/-- A falsy value on the left of `||` yields the right operand. -/
theorem jsOr_falsy (a b : JsVal) (h : truthy a = false) : jsOr a b = b := by
  simp [jsOr, h]

/-- Missed lookups outside QUERY and COOKIES fall back to the whole
collection. -/
theorem getParam_miss (source : JsVal) (paramType : Option String) (name : String)
    (hq : paramType ≠ some "query") (hc : paramType ≠ some "cookies")
    (hmiss : truthy (getProp (jsOr (getPropOpt source paramType) source) name) = false) :
    getParam source paramType name = jsOr (getPropOpt source paramType) source := by
  simp only [getParam]
  rw [jsOr_falsy _ _ hmiss]
  unfold checkQueryParam
  rw [if_neg (by simp only [beq_iff_eq]; exact hq),
    if_neg (by simp only [beq_iff_eq]; exact hc)]

/-- A missed QUERY lookup yields `undefined`. -/
theorem getParam_miss_query (source : JsVal) (name : String)
    (hmiss : truthy (getProp (jsOr (getPropOpt source (some "query")) source) name) =
      false) :
    getParam source (some "query") name = .undefined := by
  simp only [getParam]
  rw [jsOr_falsy _ _ hmiss]
  unfold checkQueryParam
  rw [if_pos (show ((some "query" : Option String) == some "query") = true by decide)]

/-- A missed COOKIES lookup falls back to the accessor's `get(name)`. -/
theorem getParam_miss_cookies (source : JsVal) (name : String)
    (hmiss : truthy (getProp (jsOr (getPropOpt source (some "cookies")) source) name) =
      false) :
    getParam source (some "cookies") name =
      cookieGet (jsOr (getPropOpt source (some "cookies")) source) name := by
  simp only [getParam]
  rw [jsOr_falsy _ _ hmiss]
  unfold checkQueryParam
  rw [if_neg (by decide),
    if_pos (show ((some "cookies" : Option String) == some "cookies") = true by decide)]

/-- C10: for PARAMS, BODY, HEADERS, REQUEST, RESPONSE and CTX parameters, a
lookup whose value is absent or falsy makes extraction yield the whole
source collection; only a missed QUERY lookup yields `undefined`, and only
COOKIES falls back to the `get(name)` accessor. -/
theorem getParam_fallback_spec (ctx next : JsVal) (item : ParameterMetadata) :
    (item.type = .PARAMS →
      truthy (getProp (jsOr (getProp ctx "params") ctx) item.parameterName) = false →
      extractOne ctx next item = jsOr (getProp ctx "params") ctx) ∧
    (item.type = .BODY →
      truthy (getProp (jsOr (getProp (getProp ctx "request") "body")
        (getProp ctx "request")) item.parameterName) = false →
      extractOne ctx next item =
        jsOr (getProp (getProp ctx "request") "body") (getProp ctx "request")) ∧
    (item.type = .HEADERS →
      truthy (getProp (jsOr (getProp (getProp ctx "request") "headers")
        (getProp ctx "request")) item.parameterName) = false →
      extractOne ctx next item =
        jsOr (getProp (getProp ctx "request") "headers") (getProp ctx "request")) ∧
    (item.type = .REQUEST →
      truthy (getProp (jsOr (getProp (getProp ctx "request") "null")
        (getProp ctx "request")) item.parameterName) = false →
      extractOne ctx next item =
        jsOr (getProp (getProp ctx "request") "null") (getProp ctx "request")) ∧
    (item.type = .RESPONSE →
      truthy (getProp (jsOr (getProp (getProp ctx "response") "null")
        (getProp ctx "response")) item.parameterName) = false →
      extractOne ctx next item =
        jsOr (getProp (getProp ctx "response") "null") (getProp ctx "response")) ∧
    (item.type = .CTX →
      truthy (getProp (jsOr (getProp ctx "null") ctx) item.parameterName) = false →
      extractOne ctx next item = jsOr (getProp ctx "null") ctx) ∧
    (item.type = .QUERY →
      truthy (getProp (jsOr (getProp ctx "query") ctx) item.parameterName) = false →
      extractOne ctx next item = .undefined) ∧
    (item.type = .COOKIES →
      truthy (getProp (jsOr (getProp ctx "cookies") ctx) item.parameterName) = false →
      extractOne ctx next item =
        cookieGet (jsOr (getProp ctx "cookies") ctx) item.parameterName) := by
  refine ⟨?_, ?_, ?_, ?_, ?_, ?_, ?_, ?_⟩ <;> intro hty hmiss <;>
    unfold extractOne <;> rw [hty]
  · exact getParam_miss ctx (some "params") item.parameterName
      (by simp) (by simp) hmiss
  · exact getParam_miss (getProp ctx "request") (some "body") item.parameterName
      (by simp) (by simp) hmiss
  · exact getParam_miss (getProp ctx "request") (some "headers") item.parameterName
      (by simp) (by simp) hmiss
  · exact getParam_miss (getProp ctx "request") none item.parameterName
      (by simp) (by simp) hmiss
  · exact getParam_miss (getProp ctx "response") none item.parameterName
      (by simp) (by simp) hmiss
  · exact getParam_miss ctx none item.parameterName (by simp) (by simp) hmiss
  · exact getParam_miss_query ctx item.parameterName hmiss
  · exact getParam_miss_cookies ctx item.parameterName hmiss

/-- Witness for `getParam_fallback_spec` on `demoCtx` with the absent name
`"nope"`: PARAMS falls back to the whole params collection, QUERY yields
`undefined`, COOKIES goes through the accessor. -/
theorem getParam_fallback_spec_witness :
    truthy (getProp (jsOr (getProp demoCtx "params") demoCtx) "nope") = false ∧
    extractOne demoCtx demoNext ⟨"nope", 0, .PARAMS⟩ =
      jsOr (getProp demoCtx "params") demoCtx ∧
    jsOr (getProp demoCtx "params") demoCtx = .vobj [("id", .vstr "42")] ∧
    extractOne demoCtx demoNext ⟨"nope", 0, .QUERY⟩ = .undefined ∧
    extractOne demoCtx demoNext ⟨"nope", 0, .COOKIES⟩ =
      cookieGet (jsOr (getProp demoCtx "cookies") demoCtx) "nope" := by
  refine ⟨by decide, ?_, rfl, ?_, ?_⟩
  · exact (getParam_fallback_spec demoCtx demoNext ⟨"nope", 0, .PARAMS⟩).1
      rfl (by decide)
  · exact (getParam_fallback_spec demoCtx demoNext ⟨"nope", 0, .QUERY⟩).2.2.2.2.2.2.1
      rfl (by decide)
  · exact (getParam_fallback_spec demoCtx demoNext
      ⟨"nope", 0, .COOKIES⟩).2.2.2.2.2.2.2 rfl (by decide)

/-- C1: the authorization gate (modelled from the spec, see
`authorizationGate`) fails with 401 whenever a rule is declared and the
principal is not authenticated; fails with 403 when authenticated but in
none of a non-empty required-role list; runs the handler when authenticated
and the role list is empty, or when `isInRole` succeeds for some required
role; and with no auth provider configured the default principal from
`_getCurrentPrincipal` makes every protected route yield 401. -/
theorem authorizationGate_spec (methodRoles controllerRoles : Option (List String))
    (requiredRoles : List String) (p : Principal) (ctxTag : Nat)
    (hdecl : methodRoles.or controllerRoles = some requiredRoles) :
    (p.isAuthenticated = false →
      authorizationGate methodRoles controllerRoles p = .unauthorized401) ∧
    (p.isAuthenticated = true → requiredRoles ≠ [] →
      (∀ r ∈ requiredRoles, p.isInRole r = false) →
      authorizationGate methodRoles controllerRoles p = .forbidden403) ∧
    (p.isAuthenticated = true → requiredRoles = [] →
      authorizationGate methodRoles controllerRoles p = .runHandler) ∧
    (p.isAuthenticated = true → (∃ r ∈ requiredRoles, p.isInRole r = true) →
      authorizationGate methodRoles controllerRoles p = .runHandler) ∧
    (authorizationGate methodRoles controllerRoles
      (getCurrentPrincipal none ctxTag) = .unauthorized401) := by
  refine ⟨?_, ?_, ?_, ?_, ?_⟩
  · intro hauth
    simp [authorizationGate, hdecl, hauth]
  · intro hauth hne hnone
    have hempty : requiredRoles.isEmpty = false := by
      cases requiredRoles with
      | nil => exact absurd rfl hne
      | cons a l => rfl
    have hany : requiredRoles.any p.isInRole = false :=
      List.any_eq_false.mpr (fun x hx => by simp [hnone x hx])
    simp [authorizationGate, hdecl, hauth, hempty, hany]
  · intro hauth hnil
    simp [authorizationGate, hdecl, hauth, hnil]
  · intro hauth hex
    have hany : requiredRoles.any p.isInRole = true :=
      List.any_eq_true.mpr (by
        obtain ⟨r, hr, hrole⟩ := hex
        exact ⟨r, hr, hrole⟩)
    simp [authorizationGate, hdecl, hauth, hany]
  · simp [authorizationGate, hdecl, getCurrentPrincipal, defaultPrincipal]

/-- Witness for `authorizationGate_spec`: with required role `"role a"`, an
unauthenticated principal gets 401, an authenticated role-less principal
gets 403, an authenticated principal with an empty rule or with the role
runs the handler, and without an auth provider the default principal gets
401. -/
theorem authorizationGate_spec_witness :
    Option.or (some ["role a"]) none = some ["role a"] ∧
    anonPrincipal.isAuthenticated = false ∧
    authorizationGate (some ["role a"]) none anonPrincipal = .unauthorized401 ∧
    authorizationGate (some ["role a"]) none authNoRolePrincipal = .forbidden403 ∧
    authorizationGate none (some []) authNoRolePrincipal = .runHandler ∧
    authorizationGate (some ["role a"]) none roleAPrincipal = .runHandler ∧
    authorizationGate (some ["role a"]) none (getCurrentPrincipal none 0) =
      .unauthorized401 := by
  refine ⟨rfl, rfl, ?_, ?_, ?_, ?_, ?_⟩
  · exact (authorizationGate_spec (some ["role a"]) none ["role a"]
      anonPrincipal 0 rfl).1 rfl
  · exact (authorizationGate_spec (some ["role a"]) none ["role a"]
      authNoRolePrincipal 0 rfl).2.1 rfl (by decide) (fun r hr => rfl)
  · exact (authorizationGate_spec none (some []) []
      authNoRolePrincipal 0 rfl).2.2.1 rfl rfl
  · exact (authorizationGate_spec (some ["role a"]) none ["role a"]
      roleAPrincipal 0 rfl).2.2.2.1 rfl ⟨"role a", by decide, by decide⟩
  · exact (authorizationGate_spec (some ["role a"]) none ["role a"]
      anonPrincipal 0 rfl).2.2.2.2
